import Mathlib

/-!
Shallow embedding of the core of the lithos container supervisor
(`src/bin/lithos_knot/main.rs` and `src/bin/lithos_tree/main.rs`) and
verification of the specification claims about it.

The supervision loop of the knot (`run`, lines 349-473 of the knot) is embedded
as a deterministic transition function over a timed trace of delivered
signals: `innerLoop` models the `while let Some(signal) = iter.next()`
loop (with `SignalIter` semantics: wait indefinitely with no deadline,
return `None` once the armed deadline has passed), and `runCycles` models
the outer `loop` including the `return Ok(3)` kill-timeout path, the
`break` path returning `exit_code`, and the restart back-off
`rtimeo - (Instant::now() - start)` whose `Duration` subtraction panics on
underflow.

The tree side embeds `check_process`, `recover_sockets`,
`recover_processes`, `open_socket` and `open_sockets_for`, with the
socket pool (a `HashMap<InetAddr, Socket>`) modelled as an association
list with replace-on-insert semantics, and the outcomes of the individual
syscalls supplied as inputs.
-/

namespace Lithos

/- ### Knot supervision loop (src/bin/lithos_knot/main.rs, `run`, lines 349-473) -/

/-- Termination status of a reaped process: `exited code` models
`status.code() = Some(code)` (and `status.signal() = None`),
`signaled sig` models `status.signal() = Some(sig)`. -/
inductive KStatus where
  | exited (code : Int)
  | signaled (sig : Int)
deriving DecidableEq

/-- Model of `status.signal()`. -/
def statusSignal : KStatus → Option Int
  | .exited _ => none
  | .signaled s => some s

/-- Model of `status.code()`. -/
def statusCode : KStatus → Option Int
  | .exited c => some c
  | .signaled _ => none

/-- One trapped signal, as returned by the `SignalIter` of the knot.  A
`sigterm` event carries whether the forwarding `child.signal(SIGTERM)`
call succeeds (`Ok(())`); a `sigchld` event carries the list of
`(pid, status)` pairs returned by `reap_zombies()`. -/
inductive KSig where
  | sigint
  | sigterm (forwarded : Bool)
  | sigchld (reaps : List (Int × KStatus))
deriving DecidableEq

/-- A delivered signal together with the `Instant` at which it is
processed (time is modelled as a natural number of milliseconds). -/
structure KEvent where
  time : Nat
  sig : KSig
deriving DecidableEq

/-- The configuration fields of the container that the supervision loop
consults.  In the source `kind` and `restart_process_only` and
`restart_timeout` are read from the instantiated config `local` while
`normal_exit_codes` and `kill_timeout` are read from `container`;
instantiation does not change these fields, so one record suffices.
Timeouts are in milliseconds, after `duration()` conversion. -/
structure KnotCfg where
  kindDaemon : Bool
  restartProcessOnly : Bool
  normalExitCodes : List Int
  killTimeout : Nat
  restartTimeout : Nat
deriving DecidableEq

/-- Numeric value of `SIGTERM as i32`. -/
def SIGTERM_NUM : Int := 15

/-- The condition under which a reaped child status sets `exit_code = 0`
(lines 418-425):
`status.signal() == Some(SIGTERM as i32) || status.code().map(|c| ...)`
where the closure is `normal_exit_codes.contains(&c)` when the list is
non-empty and `kind != Daemon && c == 0` when it is empty. -/
def statusNormal (cfg : KnotCfg) (st : KStatus) : Bool :=
  statusSignal st == some SIGTERM_NUM ||
    (match statusCode st with
     | some c =>
        if cfg.normalExitCodes.isEmpty then !cfg.kindDaemon && c == 0
        else cfg.normalExitCodes.contains c
     | none => false)

/-- Mutable state of one iteration of the outer `loop`: the locals
`killed` and `dead`, the loop-persistent `should_exit` and `exit_code`,
and the `SignalIter` deadline. -/
structure CycleState where
  killed : Bool
  dead : Bool
  shouldExit : Bool
  exitCode : Int
  deadline : Option Nat
deriving DecidableEq

/-- Handling of one `(pid, status)` pair inside the `SIGCHLD` arm
(lines 415-441): only a pid equal to the pid of the spawned child sets
`dead`, updates `exit_code`, and calls `iter.interrupt()` (which sets
the deadline to the current instant `t`). -/
def reapStep (cfg : KnotCfg) (childPid : Int) (t : Nat)
    (st : CycleState) (r : Int × KStatus) : CycleState :=
  if r.1 = childPid then
    { st with
      dead := true,
      exitCode := if statusNormal cfg r.2 then 0 else st.exitCode,
      deadline := some t }
  else st

/-- Handling of one delivered signal (the `match signal` at lines
393-445).  `SIGINT` sets `should_exit`; `SIGTERM` sets `should_exit`
and `exit_code = 0` and, when the child was not already signalled
(`!killed`), records the forwarding result in `killed` and arms the
deadline at `now + kill_timeout`; `SIGCHLD` folds `reapStep` over the
reaped pids. -/
def stepEvent (cfg : KnotCfg) (childPid : Int) (e : KEvent)
    (st : CycleState) : CycleState :=
  match e.sig with
  | .sigint => { st with shouldExit := true }
  | .sigterm fwd =>
    let st1 := { st with shouldExit := true, exitCode := 0 }
    if st1.killed then st1
    else { st1 with killed := fwd, deadline := some (e.time + cfg.killTimeout) }
  | .sigchld reaps => reaps.foldl (reapStep cfg childPid e.time) st

/-- The `while let Some(signal) = iter.next()` loop.  With no deadline,
`iter.next()` blocks for the next trapped signal (result `none` here
means the trace ends while the loop would block forever).  With a
deadline `d`, a pending signal timed at or before `d` is delivered and
the loop continues; otherwise `trap.wait(d)` returns `None` and the
loop exits at instant `max tcur d`, leaving the later signals pending.
Returns the final state, the instant at which the loop exited, and the
still-pending events. -/
def innerLoop (cfg : KnotCfg) (childPid : Int) :
    List KEvent → CycleState → Nat → Option (CycleState × Nat × List KEvent)
  | [], st, tcur =>
    match st.deadline with
    | some d => some (st, max tcur d, [])
    | none => none
  | e :: rest, st, tcur =>
    match st.deadline with
    | some d =>
      if e.time ≤ d then
        innerLoop cfg childPid rest (stepEvent cfg childPid e st) (max tcur e.time)
      else
        some (st, max tcur d, e :: rest)
    | none =>
      innerLoop cfg childPid rest (stepEvent cfg childPid e st) (max tcur e.time)

/-- Rust `Duration` subtraction: `a - b` panics (returns `none` here)
when `b` exceeds `a` ("overflow when subtracting durations"). -/
def durSub (a b : Nat) : Option Nat :=
  if b ≤ a then some (a - b) else none

/-- The loop-persistent locals of `run` that survive across iterations
of the outer `loop`. -/
structure RunState where
  shouldExit : Bool
  exitCode : Int
deriving DecidableEq

/-- Line 350: `should_exit = local.kind != Daemon || !local.restart_process_only`. -/
def initShouldExit (cfg : KnotCfg) : Bool :=
  !cfg.kindDaemon || !cfg.restartProcessOnly

/-- Per-iteration locals at the top of the outer `loop`:
`killed = false`, `dead = false`, no deadline armed. -/
def initCycle (rs : RunState) : CycleState :=
  { killed := false, dead := false, shouldExit := rs.shouldExit,
    exitCode := rs.exitCode, deadline := none }

/-- Result of the knot supervision: a returned exit code
(`Ok(code)` from `run`), a panic (the `Duration` underflow at line
467), a fatal `Err` propagated by `try!` around the per-cycle
stdout-reopen/spawn section, or divergence (the loop runs forever on
the modelled trace). -/
inductive KnotOutcome where
  | returns (code : Int)
  | panics
  | fatal
  | diverges
deriving DecidableEq

/-- The outer `loop` of `run` (lines 353-471).  Each element of
`spawns` tells whether the fallible per-iteration section
(stdout reopen + `cmd.spawn()`) succeeds; `false` models an `Err`
propagated out of `run` by `try!`.  After the inner loop: `!dead`
returns `Ok(3)` (line 461); `should_exit` breaks and returns
`exit_code` (lines 464-466, 473); otherwise the back-off
`left = rtimeo - (now - start)` is computed (`durSub`, panicking on
underflow) and the next iteration starts after `sleep(left)` when
`left > 0`.  Also returns the events still pending when the loop
ended. -/
def runCycles (cfg : KnotCfg) (childPid : Int) :
    List Bool → Nat → RunState → List KEvent → KnotOutcome × List KEvent
  | [], _, _, evs => (.diverges, evs)
  | spawnOk :: more, t0, rs, evs =>
    if spawnOk = false then (.fatal, evs)
    else
      match innerLoop cfg childPid evs (initCycle rs) t0 with
      | none => (.diverges, [])
      | some (st, t, rest) =>
        if st.dead = false then (.returns 3, rest)
        else if st.shouldExit then (.returns st.exitCode, rest)
        else
          match durSub cfg.restartTimeout (t - t0) with
          | none => (.panics, rest)
          | some left =>
            runCycles cfg childPid more (t + (if 0 < left then left else 0))
              ⟨st.shouldExit, st.exitCode⟩ rest

/-- The supervision part of `run`, entered with `should_exit` from line
350 and `exit_code = 2` from line 352. -/
def runKnot (cfg : KnotCfg) (childPid : Int) (spawns : List Bool)
    (t0 : Nat) (evs : List KEvent) : KnotOutcome × List KEvent :=
  runCycles cfg childPid spawns t0 ⟨initShouldExit cfg, 2⟩ evs

/-- A delivered signal event that makes the loop set `exit_code = 0`:
any `SIGTERM` at the knot, or a reap of the supervised child whose
status satisfies `statusNormal`. -/
def setsExitZero (cfg : KnotCfg) (childPid : Int) (e : KEvent) : Bool :=
  match e.sig with
  | .sigint => false
  | .sigterm _ => true
  | .sigchld reaps => reaps.any (fun r => r.1 == childPid && statusNormal cfg r.2)

/- ### Association-list maps

The tree keeps its socket pool in a `HashMap<InetAddr, Socket>`, its
children in a `HashMap<Pid, Child>` and its pending configs in a
`HashMap<String, Process>`.  Those maps are modelled as association
lists whose `insert` keeps the new binding and drops any previous
binding of the same key, exactly the observable behaviour of
`HashMap::insert`. -/

/-- Lookup in an association-list map. -/
def lookupAssoc {α β : Type} [DecidableEq α] (l : List (α × β)) (k : α) :
    Option β :=
  (l.find? (fun x => decide (x.1 = k))).map (·.2)

/-- Insert with `HashMap::insert` semantics: the new binding is kept and
any previous binding of the same key is dropped. -/
def insertAssoc {α β : Type} [DecidableEq α] (l : List (α × β)) (k : α)
    (v : β) : List (α × β) :=
  (k, v) :: l.filter (fun x => decide (x.1 ≠ k))

/-- Removal of a key, `HashMap::remove`. -/
def eraseAssoc {α β : Type} [DecidableEq α] (l : List (α × β)) (k : α) :
    List (α × β) :=
  l.filter (fun x => decide (x.1 ≠ k))

/-- Well-formedness of a map: keys are pairwise distinct (for the socket
pool this is exactly "at most one socket per `(ip, port)`"). -/
def AssocWF {α β : Type} (l : List (α × β)) : Prop :=
  l.Pairwise (fun x y => x.1 ≠ y.1)

/- ### Tree socket pool (src/bin/lithos_tree/main.rs) -/

/-- A listening address: `(ip, port)`, both as numbers. -/
abbrev Addr := Nat × Nat

/-- The socket pool: bound address to raw fd. -/
abbrev Pool := List (Addr × Nat)

/-- The fields of `TcpPort` (container_config) that the tree socket
code consults.  `host` is the numeric ip of `item.host.0`. -/
structure TcpPort where
  host : Nat
  fd : Nat
  reuse_addr : Bool
  reuse_port : Bool
  listen_backlog : Nat
  set_non_block : Bool
  external : Bool
deriving DecidableEq

/-- Outcomes of the syscalls performed by `open_socket` (lines 575-618),
supplied as an input environment: `socketFd` is the fd returned by
`socket(2)` (`none` when socket creation itself fails), the remaining
fields tell whether each subsequent call returns `Ok`. -/
structure SockEnv where
  socketFd : Option Nat
  reuseAddrOk : Bool
  reusePortOk : Bool
  bindOk : Bool
  listen1Ok : Bool
  listen2Ok : Bool
  getfdOk : Bool
  setfdOk : Bool
  getflOk : Bool
  setflOk : Bool
deriving DecidableEq

/-- Result of `open_socket`: the returned fd (`none` on error), the fds
closed during the call, how many times the `F_SETFD` call that clears
`FD_CLOEXEC` succeeded on the fd, and whether the fd still has
`FD_CLOEXEC` set when the function returns (it was created with
`SOCK_CLOEXEC`). -/
structure OpenSocketOut where
  result : Option Nat
  closedFds : List Nat
  cloexecClears : Nat
  finalCloexec : Bool
deriving DecidableEq

/-- Success of the `and_then` chain up to and including `fcntl(sock,
F_GETFD)`: the optional `setsockopt` calls for `SO_REUSEADDR` and
`SO_REUSEPORT`, `bind`, the two consecutive `listen` calls, then
`F_GETFD`.  A later step runs only when every earlier one succeeded. -/
def chainToSetfd (cfg : TcpPort) (env : SockEnv) : Bool :=
  (!cfg.reuse_addr || env.reuseAddrOk) &&
  (!cfg.reuse_port || env.reusePortOk) &&
  env.bindOk && env.listen1Ok && env.listen2Ok && env.getfdOk

/-- Success of the whole `result` chain of `open_socket`: after
`F_GETFD` comes the `F_SETFD` that clears `FD_CLOEXEC`, and, when
`set_non_block` is configured, `F_GETFL` and `F_SETFL` adding
`O_NONBLOCK`. -/
def openChainOk (cfg : TcpPort) (env : SockEnv) : Bool :=
  chainToSetfd cfg env && env.setfdOk &&
  (!cfg.set_non_block || (env.getflOk && env.setflOk))

/-- Model of `open_socket` (lines 575-618): create a `SOCK_CLOEXEC`
socket under an fsuid/fsgid guard (the guard only affects inode
ownership and is not modelled), run the `result` chain, and on any
failure `close(sock)` and return an error.  `FD_CLOEXEC` is cleared
exactly when the chain reached the `F_SETFD` call and that call
succeeded. -/
def open_socket (cfg : TcpPort) (env : SockEnv) : OpenSocketOut :=
  match env.socketFd with
  | none => ⟨none, [], 0, true⟩
  | some sock =>
    let cleared := chainToSetfd cfg env && env.setfdOk
    if openChainOk cfg env then
      ⟨some sock, [], (if cleared then 1 else 0), !cleared⟩
    else
      ⟨none, [sock], (if cleared then 1 else 0), !cleared⟩

/-- Model of `recover_sockets` (lines 229-260) on one enumerated fd of
`/proc/self/fd`: fds below 3 are skipped; `getsockname` classifies the
fd (`some addr` for an inet socket, `none` otherwise); an inet fd is
inserted into the pool under its bound address, replacing any
previously recorded fd for that address. -/
def recoverSockStep (p : Pool) (e : Nat × Option Addr) : Pool :=
  if 3 ≤ e.1 then
    match e.2 with
    | some a => insertAssoc p a e.1
    | none => p
  else p

/-- Model of `recover_sockets`: fold over the enumerated fds. -/
def recover_sockets (fds : List (Nat × Option Addr)) (p : Pool) : Pool :=
  fds.foldl recoverSockStep p

/-- Errors of `open_sockets_for`: a propagated `open_socket` failure, the
`bail!` on a port configured with fd 1 or 2, and the
`socks.get(&addr).unwrap()` panic on an address absent from the pool. -/
inductive OSFErr where
  | openFail (addr : Addr)
  | reservedFd
  | getPanic
deriving DecidableEq

/-- Result of `open_sockets_for`: the duplicated fds passed to the child
command as `(child fd, pool fd)` pairs (child fd 0 is stdin), or an
error. -/
inductive OSFRes where
  | ok (fds : List (Nat × Nat))
  | error (e : OSFErr)
deriving DecidableEq

/-- First loop of `open_sockets_for` (lines 627-639): for each port
passing the external/bridged filter, when the pool has no socket for
the address and the port is not `reuse_port`, open a socket and insert
it; an `open_socket` failure propagates (`?`), keeping the pool
mutations made so far. -/
def openPhase (envOf : Addr → SockEnv) (externalOnly : Bool) :
    List (Nat × TcpPort) → Pool → Pool × Option OSFErr
  | [], socks => (socks, none)
  | (port, item) :: rest, socks =>
    if externalOnly || item.external then
      let addr : Addr := (item.host, port)
      if (lookupAssoc socks addr).isNone then
        if item.reuse_port = false then
          match (open_socket item (envOf addr)).result with
          | none => (socks, some (.openFail addr))
          | some fd => openPhase envOf externalOnly rest (insertAssoc socks addr fd)
        else openPhase envOf externalOnly rest socks
      else openPhase envOf externalOnly rest socks
    else openPhase envOf externalOnly rest socks

/-- Second loop of `open_sockets_for` (lines 645-669): for each port
passing the same filter, duplicate the pooled fd into the child command
at the configured fd (0 becomes stdin; 1 and 2 are rejected with
`bail!`).  `socks.get(&addr).unwrap()` on an address that is not in the
pool is a panic, modelled as the distinguished error `getPanic`. -/
def dupPhase (externalOnly : Bool) (socks : Pool) :
    List (Nat × TcpPort) → OSFRes
  | [] => .ok []
  | (port, item) :: rest =>
    if !externalOnly && !item.external then
      dupPhase externalOnly socks rest
    else
      match item.fd, lookupAssoc socks (item.host, port) with
      | 0, some srcfd =>
        match dupPhase externalOnly socks rest with
        | .ok fds => .ok ((0, srcfd) :: fds)
        | .error e => .error e
      | 0, none => .error .getPanic
      | 1, _ => .error .reservedFd
      | 2, _ => .error .reservedFd
      | n, some srcfd =>
        match dupPhase externalOnly socks rest with
        | .ok fds => .ok ((n, srcfd) :: fds)
        | .error e => .error e
      | _, none => .error .getPanic

/-- Model of `open_sockets_for` (lines 620-672): the opening loop, then,
only when the pool is non-empty (`if socks.len() > 0`), the
duplication loop.  Returns the pool as mutated so far together with
the result. -/
def open_sockets_for (envOf : Addr → SockEnv) (externalOnly : Bool)
    (ports : List (Nat × TcpPort)) (socks : Pool) : Pool × OSFRes :=
  match openPhase envOf externalOnly ports socks with
  | (socks1, some e) => (socks1, .error e)
  | (socks1, none) =>
    if 0 < socks1.length then (socks1, dupPhase externalOnly socks1 ports)
    else (socks1, .ok [])

/- ### Tree process recovery (src/bin/lithos_tree/main.rs, lines 271-335) -/

/-- Classification of `/proc/<pid>/cmdline` by `args::read`:
`normal name config` is a recognized `lithos_knot --name <name>
--master <m> --config <config>` command line; `zombie` is a zombie
process; `error` is a read error (already logged); `unidentified` is a
cmdline of the wrong shape. -/
inductive ArgsChild where
  | normal (name : String) (config : String)
  | zombie
  | error
  | unidentified
deriving DecidableEq

/-- The fields of a pending tree `Process` record that recovery
consults: its full instance name and the serialized child config placed
on the knot command line. -/
structure TProcess where
  name : String
  config : String
deriving DecidableEq

/-- The tree `Child` enum. -/
inductive TChild where
  | process (p : TProcess)
  | unidentified (name : String)
deriving DecidableEq

/-- The tree `Timeout` enum queued in the timer queue. -/
inductive TTimeout where
  | start (p : TProcess)
  | kill (pid : Int)
deriving DecidableEq

/-- The tree state mutated by `recover_processes`: the live-children map
keyed by pid, the pending-config map keyed by instance name, the timer
queue as a list of `(deadline, action)` pairs, plus the signals the
function sends, recorded as `(pid, signal number)` in order. -/
structure RPState where
  children : List (Int × TChild)
  configs : List (String × TProcess)
  queue : List (Nat × TTimeout)
  signals : List (Int × Nat)
deriving DecidableEq

/-- Handling of one enumerated pid in `recover_processes` (lines
286-334).  The pid comes with the result of the `_is_child(pid, mypid)`
parent test and its `args::read` classification.  A `Normal` child
matching a pending record is adopted into `children` (the record is
removed from `configs`), receiving `SIGTERM` exactly when the serialized
configs differ; a `Normal` child with no pending record is inserted as
`Unidentified` and receives `SIGTERM`; a `Zombie` (and a read `Error`)
is left alone; an `Unidentified` cmdline receives `SIGTERM` and a
`Kill(pid)` entry is queued at `now + DEFAULT_KILL_TIMEOUT` (`dkt`). -/
def recoverStep (now dkt : Nat) (st : RPState)
    (e : Int × Bool × ArgsChild) : RPState :=
  let pid := e.1
  if e.2.1 = false then st else
  match e.2.2 with
  | .normal name config =>
    match lookupAssoc st.configs name with
    | some child =>
      { st with
        children := insertAssoc st.children pid (.process child),
        configs := eraseAssoc st.configs name,
        signals := st.signals ++
          (if child.config ≠ config then [(pid, 15)] else []) }
    | none =>
      { st with
        children := insertAssoc st.children pid (.unidentified name),
        signals := st.signals ++ [(pid, 15)] }
  | .zombie => st
  | .error => st
  | .unidentified =>
    { st with
      signals := st.signals ++ [(pid, 15)],
      queue := st.queue ++ [(now + dkt, .kill pid)] }

/-- Model of `recover_processes`: the fold of `recoverStep` over the
enumerated pids. -/
def recover_processes (now dkt : Nat) (entries : List (Int × Bool × ArgsChild))
    (st : RPState) : RPState :=
  entries.foldl (recoverStep now dkt) st

/- ### Tree pid file check (src/bin/lithos_tree/main.rs, `check_process`,
lines 195-227) -/

/-- Observable state of `runtime/master.pid`: absent (no metadata),
present but unreadable or unparsable, or containing a parsed pid. -/
inductive PidFile where
  | absent
  | unreadable
  | content (pid : Int)
deriving DecidableEq

/-- Result of `check_process`: whether it returned `Ok`, and whether it
wrote the current pid to the file. -/
structure CheckProcOut where
  ok : Bool
  wrote : Bool
deriving DecidableEq

/-- Model of `check_process`: when the file holds the current pid,
return `Ok` without rewriting; when it holds a different pid and
`kill(pid, None)` succeeds (a live process exists), return an error;
in every other case (absent file, unreadable file, or a stale pid with
no live process) write the current pid and return `Ok` (an `Err` when
the write itself fails, with `writeOk = false`). -/
def check_process (mypid : Int) (file : PidFile) (alive : Int → Bool)
    (writeOk : Bool) : CheckProcOut :=
  let write : CheckProcOut := if writeOk then ⟨true, true⟩ else ⟨false, false⟩
  match file with
  | .content pid =>
    if pid = mypid then ⟨true, false⟩
    else if alive pid then ⟨false, false⟩
    else write
  | .unreadable => write
  | .absent => write

/- ### Knot uid/gid checks (src/bin/lithos_knot/main.rs, lines 147-192) -/

/-- An allowed id range from the sandbox fields `allow_users`/`allow_groups`
(bounds inclusive). -/
structure IdRange where
  first : Nat
  last : Nat
deriving DecidableEq

/-- A subuid-style id map entry `{inside, outside, count}`. -/
structure IdMapEntry where
  inside : Nat
  outside : Nat
  count : Nat
deriving DecidableEq

/-- Modelled from the spec: `lithos::range::in_range` is not under
`src/`; §4.1 describes it as testing id membership in one of the
allowed ranges. -/
def in_range (ranges : List IdRange) (id : Nat) : Bool :=
  ranges.any (fun r => r.first ≤ id && id ≤ r.last)

/-- Modelled from the spec: `lithos::utils::in_mapping` is not under
`src/`; it tests that the id lies inside the inside-range of some map entry. -/
def in_mapping (map : List IdMapEntry) (id : Nat) : Bool :=
  map.any (fun m => m.inside ≤ id && id < m.inside + m.count)

/-- Modelled from the spec: `lithos::utils::check_mapping` is not under
`src/`; §4.1: "every `(inside..inside+count)` must fit inside some
allowed range at the outside offset". -/
def check_mapping (allowed : List IdRange) (map : List IdMapEntry) : Bool :=
  map.all (fun m =>
    allowed.any (fun r => r.first ≤ m.outside && m.outside + m.count ≤ r.last + 1))

/-- The id-related fields of the instantiated container config
`local`. -/
structure LocalIds where
  user_id : Option Nat
  group_id : Option Nat
  uid_map : List IdMapEntry
  gid_map : List IdMapEntry
deriving DecidableEq

/-- The id-related fields of the sandbox config. -/
structure SandboxIds where
  default_user : Option Nat
  default_group : Option Nat
  allow_users : List IdRange
  allow_groups : List IdRange
deriving DecidableEq

/-- Line 148: `local.user_id.or(sandbox.default_user)`. -/
def resolve_user (l : LocalIds) (s : SandboxIds) : Option Nat :=
  l.user_id.orElse (fun _ => s.default_user)

/-- Line 167: `local.group_id.or(sandbox.default_group)`. -/
def resolve_group (l : LocalIds) (s : SandboxIds) : Option Nat :=
  l.group_id.orElse (fun _ => s.default_group)

/-- Lines 147-164: resolve the user id and check it against the uid map
(when non-empty) or the allowed ranges of the sandbox (when empty). -/
def checkUser (l : LocalIds) (s : SandboxIds) : Except String Nat :=
  match resolve_user l s with
  | some u =>
    if 0 < l.uid_map.length then
      if in_mapping l.uid_map u = false then
        .error "User is not in mapped range"
      else .ok u
    else
      if in_range s.allow_users u = false then
        .error "User is not in allowed range"
      else .ok u
  | none => .error "No user id specified and no default is found"

/-- Lines 166-183: the same resolution and check for the group id. -/
def checkGroup (l : LocalIds) (s : SandboxIds) : Except String Nat :=
  match resolve_group l s with
  | some g =>
    if 0 < l.gid_map.length then
      if in_mapping l.gid_map g = false then
        .error "Group is not in mapped range"
      else .ok g
    else
      if in_range s.allow_groups g = false then
        .error "Group is not in allowed range"
      else .ok g
  | none => .error "No group id specified and no default is found"

/-- Lines 147-192 of the knot `run` function: the user check, the group check,
then `check_mapping` of the uid map against `allow_users` and of the
gid map against `allow_groups`.  The first failure aborts `run` with an
error, before any spawn. -/
def uidGidChecks (l : LocalIds) (s : SandboxIds) : Except String (Nat × Nat) :=
  match checkUser l s with
  | .error e => .error e
  | .ok u =>
    match checkGroup l s with
    | .error e => .error e
    | .ok g =>
      if check_mapping s.allow_users l.uid_map = false then
        .error "Bad uid mapping (probably does not match allow_users)"
      else if check_mapping s.allow_groups l.gid_map = false then
        .error "Bad gid mapping (probably does not match allow_groups)"
      else .ok (u, g)

/-- Whether an `Except` is a success. -/
def exceptOk {ε α : Type} : Except ε α → Bool
  | .ok _ => true
  | .error _ => false

/- ### Concrete instances used by counterexamples and witnesses -/

/-- A daemon container with `kill_timeout` of 5 and `restart_timeout` of
10 time units. -/
def exCfgDaemon : KnotCfg := ⟨true, false, [], 5, 10⟩

/-- A daemon with `restart_process_only = true` (so `should_exit` starts
`false`) and `restart_timeout = 0`. -/
def exCfgBackoff : KnotCfg := ⟨true, true, [], 5, 0⟩

/-- A non-daemon (Command) container with empty `normal_exit_codes`. -/
def exCfgCommand : KnotCfg := ⟨false, false, [], 5, 10⟩

/-- A syscall environment in which every call succeeds and `socket(2)`
returns fd 10. -/
def exEnvAllOk : SockEnv := ⟨some 10, true, true, true, true, true, true, true, true, true⟩

/-- An external `reuse_port` tcp port bound on ip 1, passed to the child
as fd 3. -/
def exPortReuse : TcpPort := ⟨1, 3, false, true, 0, false, true⟩

/-- An ordinary external port with `reuse_addr` and backlog 128. -/
def exPortPlain : TcpPort := ⟨1, 3, true, false, 128, false, true⟩

/-- A recovery state with one pending config record for instance name
`"a"` whose serialized child config is `"old"`. -/
def exRPState : RPState := ⟨[], [("a", ⟨"a", "old"⟩)], [], []⟩

/- ## Helper lemmas -/

/-- Bounded existence over a cons. -/
theorem exists_mem_cons_p {α : Type} (p : α → Prop) (a : α) (l : List α) :
    (∃ x ∈ a :: l, p x) ↔ p a ∨ (∃ x ∈ l, p x) := by
  constructor
  · rintro ⟨x, hx, hp⟩
    rcases List.mem_cons.mp hx with rfl | h
    · exact Or.inl hp
    · exact Or.inr ⟨x, h, hp⟩
  · rintro (hp | ⟨x, hx, hp⟩)
    · exact ⟨a, List.mem_cons_self a l, hp⟩
    · exact ⟨x, List.mem_cons_of_mem _ hx, hp⟩

/-- Bounded existence over an append. -/
theorem exists_mem_append_p {α : Type} (p : α → Prop) (l1 l2 : List α) :
    (∃ x ∈ l1 ++ l2, p x) ↔ (∃ x ∈ l1, p x) ∨ (∃ x ∈ l2, p x) := by
  constructor
  · rintro ⟨x, hx, hp⟩
    rcases List.mem_append.mp hx with h | h
    · exact Or.inl ⟨x, h, hp⟩
    · exact Or.inr ⟨x, h, hp⟩
  · rintro (⟨x, hx, hp⟩ | ⟨x, hx, hp⟩)
    · exact ⟨x, List.mem_append_left _ hx, hp⟩
    · exact ⟨x, List.mem_append_right _ hx, hp⟩

/-- Handling one reaped pid: `exit_code` becomes 0 exactly when it
already was 0 or the pid is the supervised child and its status
satisfies `statusNormal`; otherwise `exit_code` is untouched. -/
theorem reapStep_exitCode (cfg : KnotCfg) (pid : Int) (t : Nat)
    (st : CycleState) (r : Int × KStatus) :
    ((reapStep cfg pid t st r).exitCode = 0 ↔
      (st.exitCode = 0 ∨ (r.1 == pid && statusNormal cfg r.2) = true)) ∧
    ((reapStep cfg pid t st r).exitCode = 0 ∨
      (reapStep cfg pid t st r).exitCode = st.exitCode) := by
  unfold reapStep
  by_cases h : r.1 = pid
  · by_cases hn : statusNormal cfg r.2 = true
    · simp [h, hn]
    · simp [h, hn]
  · simp [h]

/-- The `reap_zombies` fold: `exit_code` is 0 after the fold exactly
when it was 0 before or some reaped pair matches the child with a
normal status. -/
theorem reapFold_exitCode (cfg : KnotCfg) (pid : Int) (t : Nat)
    (reaps : List (Int × KStatus)) :
    ∀ (st : CycleState),
    (((reaps.foldl (reapStep cfg pid t) st).exitCode = 0) ↔
      (st.exitCode = 0 ∨
        reaps.any (fun r => r.1 == pid && statusNormal cfg r.2) = true)) ∧
    ((reaps.foldl (reapStep cfg pid t) st).exitCode = 0 ∨
      (reaps.foldl (reapStep cfg pid t) st).exitCode = st.exitCode) := by
  induction reaps with
  | nil => intro st; simp
  | cons r rs ih =>
    intro st
    have hs := reapStep_exitCode cfg pid t st r
    have hr := ih (reapStep cfg pid t st r)
    constructor
    · rw [List.foldl_cons, hr.1, hs.1]
      simp only [List.any_cons, Bool.or_eq_true]
      tauto
    · rcases hr.2 with h0 | heq
      · exact Or.inl (by rw [List.foldl_cons]; exact h0)
      · rw [List.foldl_cons, heq]
        exact hs.2

/-- One delivered signal: `exit_code` becomes 0 exactly when it already
was 0 or the event is one of the `setsExitZero` events; otherwise it is
untouched. -/
theorem stepEvent_exitCode (cfg : KnotCfg) (pid : Int) (e : KEvent)
    (st : CycleState) :
    ((stepEvent cfg pid e st).exitCode = 0 ↔
      (st.exitCode = 0 ∨ setsExitZero cfg pid e = true)) ∧
    ((stepEvent cfg pid e st).exitCode = 0 ∨
      (stepEvent cfg pid e st).exitCode = st.exitCode) := by
  obtain ⟨time, sig⟩ := e
  cases sig with
  | sigint => simp [stepEvent, setsExitZero]
  | sigterm f =>
    by_cases h : st.killed
    · simp [stepEvent, setsExitZero, h]
    · simp [stepEvent, setsExitZero, h]
  | sigchld reaps =>
    simpa [stepEvent, setsExitZero] using reapFold_exitCode cfg pid time reaps st

/-- Characterization of one run of the inner signal loop: the pending
events on exit are a suffix of the input trace, and `exit_code` is 0 on
exit exactly when it was 0 on entry or some delivered event is a
`setsExitZero` event (a SIGTERM at the knot, or a reap of the child
with a normal status).  Moreover `exit_code` is only ever set to 0. -/
theorem innerLoop_spec (cfg : KnotCfg) (pid : Int) :
    ∀ (evs : List KEvent) (st : CycleState) (tcur : Nat)
      (st1 : CycleState) (t : Nat) (rest : List KEvent),
    innerLoop cfg pid evs st tcur = some (st1, t, rest) →
    ∃ pre, evs = pre ++ rest ∧
      ((st1.exitCode = 0) ↔
        (st.exitCode = 0 ∨ ∃ e ∈ pre, setsExitZero cfg pid e = true)) ∧
      (st1.exitCode = 0 ∨ st1.exitCode = st.exitCode) := by
  intro evs
  induction evs with
  | nil =>
    intro st tcur st1 t rest h
    cases hd : st.deadline with
    | none => simp [innerLoop, hd] at h
    | some d =>
      simp only [innerLoop, hd, Option.some.injEq, Prod.mk.injEq] at h
      obtain ⟨h1, _, h3⟩ := h
      subst h1
      subst h3
      exact ⟨[], by simp⟩
  | cons e evs ih =>
    intro st tcur st1 t rest h
    have assemble : ∀ tc : Nat,
        innerLoop cfg pid evs (stepEvent cfg pid e st) tc =
          some (st1, t, rest) →
        ∃ pre, e :: evs = pre ++ rest ∧
          ((st1.exitCode = 0) ↔
            (st.exitCode = 0 ∨ ∃ x ∈ pre, setsExitZero cfg pid x = true)) ∧
          (st1.exitCode = 0 ∨ st1.exitCode = st.exitCode) := by
      intro tc h1
      obtain ⟨pre, hpre, hiff, hor⟩ := ih _ _ _ _ _ h1
      have hs := stepEvent_exitCode cfg pid e st
      refine ⟨e :: pre, by simp [hpre], ?_, ?_⟩
      · rw [hiff, hs.1, exists_mem_cons_p]
        tauto
      · rcases hor with h0 | heq
        · exact Or.inl h0
        · rw [heq]; exact hs.2
    cases hd : st.deadline with
    | none =>
      simp only [innerLoop, hd] at h
      exact assemble _ h
    | some d =>
      by_cases ht : e.time ≤ d
      · simp only [innerLoop, hd, if_pos ht] at h
        exact assemble _ h
      · simp only [innerLoop, hd, if_neg ht, Option.some.injEq, Prod.mk.injEq] at h
        obtain ⟨h1, _, h3⟩ := h
        subst h1
        subst h3
        exact ⟨[], by simp⟩

/-- Characterization of the outer loop when it terminates by `break`
and returns `exit_code` (result `returns c` with `c ≠ 3`): the exit
code is 0 exactly when it was 0 on entry or some delivered event sets
it to 0, and it is only ever 0 or the entry value. -/
theorem runCycles_returns (cfg : KnotCfg) (pid : Int) :
    ∀ (spawns : List Bool) (t0 : Nat) (rs : RunState) (evs : List KEvent)
      (c : Int) (rest : List KEvent),
    runCycles cfg pid spawns t0 rs evs = (.returns c, rest) → c ≠ 3 →
    ∃ pre, evs = pre ++ rest ∧
      ((c = 0) ↔ (rs.exitCode = 0 ∨ ∃ e ∈ pre, setsExitZero cfg pid e = true)) ∧
      (c = 0 ∨ c = rs.exitCode) := by
  intro spawns
  induction spawns with
  | nil =>
    intro t0 rs evs c rest h hc
    simp [runCycles] at h
  | cons ok more ih =>
    intro t0 rs evs c rest h hc
    by_cases hok : ok = false
    · simp [runCycles, hok] at h
    · cases hil : innerLoop cfg pid evs (initCycle rs) t0 with
      | none => simp [runCycles, hok, hil] at h
      | some v =>
        obtain ⟨st, t, rest1⟩ := v
        simp only [runCycles, if_neg hok, hil] at h
        by_cases hdead : st.dead = false
        · rw [if_pos hdead] at h
          simp only [Prod.mk.injEq, KnotOutcome.returns.injEq] at h
          exact absurd h.1.symm hc
        · rw [if_neg hdead] at h
          by_cases hse : st.shouldExit = true
          · rw [if_pos hse] at h
            simp only [Prod.mk.injEq, KnotOutcome.returns.injEq] at h
            obtain ⟨h1, h2⟩ := h
            subst h1
            subst h2
            obtain ⟨pre, hpre, hiff, hor⟩ := innerLoop_spec cfg pid _ _ _ _ _ _ hil
            refine ⟨pre, hpre, ?_, ?_⟩
            · simpa [initCycle] using hiff
            · simpa [initCycle] using hor
          · rw [if_neg hse] at h
            cases hds : durSub cfg.restartTimeout (t - t0) with
            | none => rw [hds] at h; simp at h
            | some left =>
              rw [hds] at h
              obtain ⟨pre2, hpre2, hiff2, hor2⟩ := ih _ _ _ _ _ h hc
              obtain ⟨pre1, hpre1, hiff1, hor1⟩ :=
                innerLoop_spec cfg pid _ _ _ _ _ _ hil
              have hiff2x : c = 0 ↔
                  (st.exitCode = 0 ∨ ∃ e ∈ pre2, setsExitZero cfg pid e = true) := hiff2
              have hor2x : c = 0 ∨ c = st.exitCode := hor2
              have hiff1s : st.exitCode = 0 ↔
                  (rs.exitCode = 0 ∨ ∃ e ∈ pre1, setsExitZero cfg pid e = true) := by
                simpa [initCycle] using hiff1
              have hor1s : st.exitCode = 0 ∨ st.exitCode = rs.exitCode := by
                simpa [initCycle] using hor1
              refine ⟨pre1 ++ pre2, ?_, ?_, ?_⟩
              · rw [hpre1, hpre2, List.append_assoc]
              · rw [hiff2x, hiff1s]
                constructor
                · rintro ((h0 | he1) | he2)
                  · exact Or.inl h0
                  · exact Or.inr ((exists_mem_append_p _ pre1 pre2).mpr (Or.inl he1))
                  · exact Or.inr ((exists_mem_append_p _ pre1 pre2).mpr (Or.inr he2))
                · rintro (h0 | he)
                  · exact Or.inl (Or.inl h0)
                  · rcases (exists_mem_append_p _ pre1 pre2).mp he with h1 | h2
                    · exact Or.inl (Or.inr h1)
                    · exact Or.inr h2
              · rcases hor2x with h0 | heq
                · exact Or.inl h0
                · rcases hor1s with h0 | heq1
                  · exact Or.inl (heq.trans h0)
                  · exact Or.inr (heq.trans heq1)

/- ## Claim theorems -/

/-- C1 (counterexample): the claim "the supervision loop of the knot returns
exit code 0 if and only if at least one of (a) a SIGTERM was received,
(b) the reaped child was terminated by SIGTERM, (c) a normal exit code"
is false as stated: in this concrete execution the knot receives
SIGTERM (so condition (a) holds and `setsExitZero` holds of the
delivered event), forwards it, and the child is never reaped, so `run`
returns 3, not 0. -/
theorem c1_counterexample :
    runKnot exCfgDaemon 7 [true] 0 [⟨0, .sigterm true⟩] = (.returns 3, []) ∧
    (∃ e ∈ [(⟨0, .sigterm true⟩ : KEvent)], setsExitZero exCfgDaemon 7 e = true) ∧
    (3 : Int) ≠ 0 := by
  refine ⟨by decide, ⟨⟨0, .sigterm true⟩, by decide, by decide⟩, by decide⟩

/-- C1 (amended): whenever the supervision loop terminates by reaping
the child and breaking out (i.e. `run` returns a code other than the
kill-timeout code 3), the returned code is 0 iff some delivered event
of the whole supervision run set `exit_code` to 0 — a SIGTERM received
at the knot, or a reap of the supervised child that was terminated by
SIGTERM or exited with a code in `normal_exit_codes` (or, when that
list is empty, with code 0 for a non-Daemon kind); in every other such
termination the returned code is the last-set code, which starts at 2
and is never assigned any other value. -/
theorem c1_exit_code (cfg : KnotCfg) (pid : Int) (spawns : List Bool)
    (t0 : Nat) (evs : List KEvent) (c : Int) (rest : List KEvent) :
    runKnot cfg pid spawns t0 evs = (.returns c, rest) → c ≠ 3 →
    (c = 0 ∨ c = 2) ∧
    ∃ pre, evs = pre ++ rest ∧
      ((c = 0) ↔ ∃ e ∈ pre, setsExitZero cfg pid e = true) := by
  intro h hc
  obtain ⟨pre, hpre, hiff, hor⟩ :=
    runCycles_returns cfg pid spawns t0 ⟨initShouldExit cfg, 2⟩ evs c rest h hc
  refine ⟨?_, pre, hpre, ?_⟩
  · simpa using hor
  · rw [hiff]
    simp

/-- C1 (witness): a Command-kind child exits with code 0 and empty
`normal_exit_codes`; the loop breaks and returns 0, and the delivered
reap event is a `setsExitZero` event. -/
theorem c1_witness :
    ((0 : Int) = 0 ∨ (0 : Int) = 2) ∧
    ∃ pre, [(⟨0, .sigchld [(7, .exited 0)]⟩ : KEvent)] = pre ++ [] ∧
      (((0 : Int) = 0) ↔ ∃ e ∈ pre, setsExitZero exCfgCommand 7 e = true) :=
  c1_exit_code exCfgCommand 7 [true] 0 [⟨0, .sigchld [(7, .exited 0)]⟩] 0 []
    (by decide) (by decide)

/-- C2: forwarding SIGTERM arms the kill deadline exactly once.  First
conjunct: a SIGTERM processed with `killed = false` whose forward
succeeds sets `should_exit`, `exit_code = 0`, `killed = true` and arms
the deadline at `now + kill_timeout`.  Second conjunct: once `killed`
holds, a further SIGTERM neither re-arms the deadline nor clears
`killed`.  Third conjunct: whenever the inner loop of a cycle exits
with the child not reaped (`dead = false`, i.e. the armed deadline
passed without a reap of the child), `run` returns 3. -/
theorem c2_kill_timeout (cfg : KnotCfg) (pid : Int) (t : Nat)
    (st : CycleState) :
    (st.killed = false →
      stepEvent cfg pid ⟨t, .sigterm true⟩ st =
        { st with shouldExit := true, exitCode := 0, killed := true,
                  deadline := some (t + cfg.killTimeout) }) ∧
    (∀ fwd, st.killed = true →
      (stepEvent cfg pid ⟨t, .sigterm fwd⟩ st).deadline = st.deadline ∧
      (stepEvent cfg pid ⟨t, .sigterm fwd⟩ st).killed = true) ∧
    (∀ (more : List Bool) (t0 : Nat) (rs : RunState) (evs : List KEvent)
       (st1 : CycleState) (t1 : Nat) (rest : List KEvent),
      innerLoop cfg pid evs (initCycle rs) t0 = some (st1, t1, rest) →
      st1.dead = false →
      runCycles cfg pid (true :: more) t0 rs evs = (.returns 3, rest)) := by
  refine ⟨?_, ?_, ?_⟩
  · intro h
    simp [stepEvent, h]
  · intro fwd h
    constructor <;> simp [stepEvent, h]
  · intro more t0 rs evs st1 t1 rest hil hdead
    simp [runCycles, hil, hdead]

/-- C2 (witness): concrete execution in which a forwarded SIGTERM arms
the deadline, the child is never reaped, and `run` returns 3. -/
theorem c2_witness :
    runCycles exCfgDaemon 7 [true] 0 ⟨true, 2⟩ [⟨0, .sigterm true⟩] =
      (.returns 3, []) :=
  (c2_kill_timeout exCfgDaemon 7 0 ⟨false, false, false, 0, none⟩).2.2
    [] 0 ⟨true, 2⟩ [⟨0, .sigterm true⟩]
    ⟨true, false, true, 0, some 5⟩ 5 [] (by decide) (by decide)

/-- C7: the restart back-off.  First conjunct: Rust `Duration`
subtraction `rtimeo - uptime` is defined exactly when the uptime does
not exceed `restart_timeout`, and panics (models as `none`) otherwise.
Second conjunct: in any execution whose cycle ends with the child
reaped, `should_exit` still false, and an uptime `t1 - t0` exceeding
`restart_timeout`, the knot panics at the subtraction instead of
respawning. -/
theorem c7_backoff_panic :
    (∀ r u : Nat, durSub r u = none ↔ r < u) ∧
    (∀ (cfg : KnotCfg) (pid : Int) (more : List Bool) (t0 : Nat)
       (rs : RunState) (evs : List KEvent) (st1 : CycleState) (t1 : Nat)
       (rest : List KEvent),
      innerLoop cfg pid evs (initCycle rs) t0 = some (st1, t1, rest) →
      st1.dead = true → st1.shouldExit = false →
      cfg.restartTimeout < t1 - t0 →
      runCycles cfg pid (true :: more) t0 rs evs = (.panics, rest)) := by
  constructor
  · intro r u
    unfold durSub
    by_cases h : u ≤ r
    · simp [h, Nat.not_lt.mpr h]
    · simp [h, Nat.lt_of_not_le h]
  · intro cfg pid more t0 rs evs st1 t1 rest hil hdead hse hlt
    have hds : durSub cfg.restartTimeout (t1 - t0) = none := by
      unfold durSub
      simp [Nat.not_le.mpr hlt]
    simp [runCycles, hil, hdead, hse, hds]

/-- C7 (witness): a daemon with `restart_process_only` and
`restart_timeout = 0` whose child dies abnormally at time 5: the uptime
5 exceeds the restart timeout 0 and the knot panics. -/
theorem c7_witness :
    runCycles exCfgBackoff 7 [true] 0 ⟨false, 2⟩
      [⟨5, .sigchld [(7, .exited 1)]⟩] = (.panics, []) :=
  c7_backoff_panic.2 exCfgBackoff 7 [] 0 ⟨false, 2⟩
    [⟨5, .sigchld [(7, .exited 1)]⟩]
    ⟨false, true, false, 2, some 5⟩ 5 [] (by decide) (by decide) (by decide)
    (by decide)

/- ## Association-map lemmas -/

/-- Looking up the key just inserted yields the inserted value. -/
theorem lookupAssoc_insert_self {α β : Type} [DecidableEq α]
    (l : List (α × β)) (k : α) (v : β) :
    lookupAssoc (insertAssoc l k v) k = some v := by
  simp [lookupAssoc, insertAssoc, List.find?_cons_of_pos]

/-- Dropping the bindings of a different key does not change a
lookup. -/
theorem find_filter_ne {α β : Type} [DecidableEq α]
    (l : List (α × β)) (a k : α) (h : a ≠ k) :
    (l.filter (fun x => decide (x.1 ≠ k))).find? (fun x => decide (x.1 = a)) =
      l.find? (fun x => decide (x.1 = a)) := by
  induction l with
  | nil => rfl
  | cons x xs ih =>
    by_cases hk : x.1 = k
    · have hfil : (decide (x.1 ≠ k)) = false := by simp [hk]
      have hfind : (decide (x.1 = a)) = false := by
        simp only [decide_eq_false_iff_not]
        rw [hk]
        exact fun hh => h hh.symm
      rw [List.filter_cons, hfil]
      simp only [Bool.false_eq_true, if_false]
      rw [ih, List.find?_cons, hfind]
    · have hfil : (decide (x.1 ≠ k)) = true := by simpa using hk
      rw [List.filter_cons, hfil]
      simp only [if_true]
      rw [List.find?_cons, List.find?_cons]
      cases hfind : decide (x.1 = a) with
      | true => rfl
      | false => exact ih

/-- Inserting under one key does not change the lookup of another. -/
theorem lookupAssoc_insert_ne {α β : Type} [DecidableEq α]
    (l : List (α × β)) (k a : α) (v : β) (h : a ≠ k) :
    lookupAssoc (insertAssoc l k v) a = lookupAssoc l a := by
  unfold lookupAssoc insertAssoc
  have hfind : (decide (((k, v) : α × β).1 = a)) = false := by
    simp only [decide_eq_false_iff_not]
    exact fun hh => h hh.symm
  rw [List.find?_cons, hfind, find_filter_ne l a k h]

/-- Insertion preserves distinctness of keys. -/
theorem insertAssoc_wf {α β : Type} [DecidableEq α]
    (l : List (α × β)) (k : α) (v : β) (h : AssocWF l) :
    AssocWF (insertAssoc l k v) := by
  unfold AssocWF insertAssoc
  refine List.Pairwise.cons ?_ (List.Pairwise.sublist (List.filter_sublist _) h)
  intro y hy
  have hmem := List.of_mem_filter hy
  simp only [decide_eq_true_eq] at hmem
  exact fun hh => hmem hh.symm

/-- One step of socket recovery preserves distinctness of pool
addresses. -/
theorem recoverSockStep_wf (p : Pool) (e : Nat × Option Addr)
    (h : AssocWF p) : AssocWF (recoverSockStep p e) := by
  unfold recoverSockStep
  by_cases h3 : 3 ≤ e.1
  · cases he : e.2 with
    | none => simpa [h3, he] using h
    | some a => simpa [h3, he] using insertAssoc_wf p a e.1 h
  · simpa [h3] using h

/-- Socket recovery preserves distinctness of pool addresses. -/
theorem recover_sockets_wf (fds : List (Nat × Option Addr)) :
    ∀ p : Pool, AssocWF p → AssocWF (recover_sockets fds p) := by
  induction fds with
  | nil => intro p h; exact h
  | cons e fds ih =>
    intro p h
    exact ih _ (recoverSockStep_wf p e h)

/-- The opening loop of `open_sockets_for` never touches an address
that is already in the pool. -/
theorem openPhase_preserves (envOf : Addr → SockEnv) (eo : Bool) :
    ∀ (ports : List (Nat × TcpPort)) (socks : Pool) (a : Addr) (fd0 : Nat),
    lookupAssoc socks a = some fd0 →
    lookupAssoc (openPhase envOf eo ports socks).1 a = some fd0 := by
  intro ports
  induction ports with
  | nil =>
    intro socks a fd0 h
    simpa [openPhase] using h
  | cons pi rest ih =>
    obtain ⟨port, item⟩ := pi
    intro socks a fd0 h
    by_cases hf : (eo || item.external) = true
    · by_cases habs : (lookupAssoc socks (item.host, port)).isNone = true
      · by_cases hrp : item.reuse_port = false
        · cases hos : (open_socket item (envOf (item.host, port))).result with
          | none => simpa [openPhase, hf, habs, hrp, hos] using h
          | some fd =>
            have hne : a ≠ (item.host, port) := by
              intro heq
              rw [heq] at h
              rw [h] at habs
              simp at habs
            have h2 : lookupAssoc (insertAssoc socks (item.host, port) fd) a =
                some fd0 := by
              rw [lookupAssoc_insert_ne socks (item.host, port) a fd hne]
              exact h
            simpa [openPhase, hf, habs, hrp, hos] using ih _ _ _ h2
        · simpa [openPhase, hf, habs, hrp] using ih _ _ _ h
      · simpa [openPhase, hf, habs] using ih _ _ _ h
    · simpa [openPhase, hf] using ih _ _ _ h

/-- The opening loop of `open_sockets_for` preserves distinctness of
pool addresses. -/
theorem openPhase_wf (envOf : Addr → SockEnv) (eo : Bool) :
    ∀ (ports : List (Nat × TcpPort)) (socks : Pool),
    AssocWF socks → AssocWF (openPhase envOf eo ports socks).1 := by
  intro ports
  induction ports with
  | nil =>
    intro socks h
    simpa [openPhase] using h
  | cons pi rest ih =>
    obtain ⟨port, item⟩ := pi
    intro socks h
    by_cases hf : (eo || item.external) = true
    · by_cases habs : (lookupAssoc socks (item.host, port)).isNone = true
      · by_cases hrp : item.reuse_port = false
        · cases hos : (open_socket item (envOf (item.host, port))).result with
          | none => simpa [openPhase, hf, habs, hrp, hos] using h
          | some fd =>
            simpa [openPhase, hf, habs, hrp, hos] using
              ih _ (insertAssoc_wf socks (item.host, port) fd h)
        · simpa [openPhase, hf, habs, hrp] using ih _ h
      · simpa [openPhase, hf, habs] using ih _ h
    · simpa [openPhase, hf] using ih _ h

/-- When the opening loop aborts because `open_socket` failed for an
address, that address is absent from the pool it leaves behind. -/
theorem openPhase_openFail (envOf : Addr → SockEnv) (eo : Bool) :
    ∀ (ports : List (Nat × TcpPort)) (socks socks1 : Pool) (a : Addr),
    openPhase envOf eo ports socks = (socks1, some (.openFail a)) →
    lookupAssoc socks1 a = none := by
  intro ports
  induction ports with
  | nil =>
    intro socks socks1 a h
    simp [openPhase] at h
  | cons pi rest ih =>
    obtain ⟨port, item⟩ := pi
    intro socks socks1 a h
    by_cases hf : (eo || item.external) = true
    · by_cases habs : (lookupAssoc socks (item.host, port)).isNone = true
      · by_cases hrp : item.reuse_port = false
        · cases hos : (open_socket item (envOf (item.host, port))).result with
          | none =>
            simp only [openPhase, if_pos hf, if_pos habs, if_pos hrp, hos,
              Prod.mk.injEq, Option.some.injEq, OSFErr.openFail.injEq] at h
            obtain ⟨h1, h2⟩ := h
            subst h1
            subst h2
            simpa using habs
          | some fd =>
            rw [show openPhase envOf eo ((port, item) :: rest) socks =
              openPhase envOf eo rest (insertAssoc socks (item.host, port) fd) by
                simp [openPhase, hf, habs, hrp, hos]] at h
            exact ih _ _ _ h
        · rw [show openPhase envOf eo ((port, item) :: rest) socks =
            openPhase envOf eo rest socks by
              simp [openPhase, hf, habs, hrp]] at h
          exact ih _ _ _ h
      · rw [show openPhase envOf eo ((port, item) :: rest) socks =
          openPhase envOf eo rest socks by
            simp [openPhase, hf, habs]] at h
        exact ih _ _ _ h
    · rw [show openPhase envOf eo ((port, item) :: rest) socks =
        openPhase envOf eo rest socks by
          simp [openPhase, hf]] at h
      exact ih _ _ _ h

/-- C9: the socket pool of the tree holds at most one socket per `(ip,port)`.
First conjunct: `recover_sockets` preserves distinctness of pool
addresses from any well-formed pool (in particular the empty one it is
called with).  Second conjunct: inserting a duplicate address keeps
exactly one entry, the newly recorded fd.  Third conjunct: the opening
loop of `open_sockets_for` leaves every address already in the pool
bound to its existing fd (it opens only for absent addresses).  Fourth
conjunct: the opening loop preserves distinctness of addresses. -/
theorem c9_socket_pool_unique :
    (∀ (fds : List (Nat × Option Addr)) (p : Pool),
      AssocWF p → AssocWF (recover_sockets fds p)) ∧
    (∀ (p : Pool) (a : Addr) (fd : Nat),
      lookupAssoc (insertAssoc p a fd) a = some fd) ∧
    (∀ (envOf : Addr → SockEnv) (eo : Bool) (ports : List (Nat × TcpPort))
       (socks : Pool) (a : Addr) (fd0 : Nat),
      lookupAssoc socks a = some fd0 →
      lookupAssoc (openPhase envOf eo ports socks).1 a = some fd0) ∧
    (∀ (envOf : Addr → SockEnv) (eo : Bool) (ports : List (Nat × TcpPort))
       (socks : Pool),
      AssocWF socks → AssocWF (openPhase envOf eo ports socks).1) :=
  ⟨fun fds p h => recover_sockets_wf fds p h,
   fun p a fd => lookupAssoc_insert_self p a fd,
   fun envOf eo ports socks a fd0 h => openPhase_preserves envOf eo ports socks a fd0 h,
   fun envOf eo ports socks h => openPhase_wf envOf eo ports socks h⟩

/-- C9 (witness): recovering two fds bound to the same address keeps a
single, well-formed pool entry holding the later fd. -/
theorem c9_witness :
    AssocWF (recover_sockets [(3, some ((1, 80) : Addr)), (4, some ((1, 80) : Addr))] []) ∧
    lookupAssoc (insertAssoc ([((1, 80), 3)] : Pool) (1, 80) 4) (1, 80) = some 4 ∧
    lookupAssoc (openPhase (fun _ => exEnvAllOk) true [(80, exPortPlain)]
      ([(((1 : Nat), (80 : Nat)), 3)] : Pool)).1 (1, 80) = some 3 :=
  ⟨c9_socket_pool_unique.1 [(3, some ((1, 80) : Addr)), (4, some ((1, 80) : Addr))] []
      (by simp [AssocWF]),
   c9_socket_pool_unique.2.1 [((1, 80), 3)] (1, 80) 4,
   c9_socket_pool_unique.2.2.1 (fun _ => exEnvAllOk) true [(80, exPortPlain)]
      [((1, 80), 3)] (1, 80) 3 (by decide)⟩

/-- C8: `open_socket` is atomic on failure.  First conjunct: when
`socket(2)` returned an fd but any later step of the chain fails
(`openChainOk` is false), the function returns no fd and closes exactly
the created fd.  Second conjunct: when the opening loop of
`open_sockets_for` aborts because `open_socket` failed for an address,
the pool it leaves behind (and hands to the caller through `&mut`) has
no entry for that address, and the error is propagated instead of an
`Ok`. -/
theorem c8_open_socket_atomic :
    (∀ (cfg : TcpPort) (env : SockEnv) (sock : Nat),
      env.socketFd = some sock → openChainOk cfg env = false →
      (open_socket cfg env).result = none ∧
      (open_socket cfg env).closedFds = [sock]) ∧
    (∀ (envOf : Addr → SockEnv) (eo : Bool) (ports : List (Nat × TcpPort))
       (socks : Pool) (socks1 : Pool) (a : Addr),
      openPhase envOf eo ports socks = (socks1, some (.openFail a)) →
      lookupAssoc socks1 a = none ∧
      open_sockets_for envOf eo ports socks = (socks1, .error (.openFail a))) := by
  constructor
  · intro cfg env sock hs hchain
    unfold open_socket
    rw [hs]
    simp [hchain]
  · intro envOf eo ports socks socks1 a h
    refine ⟨openPhase_openFail envOf eo ports socks socks1 a h, ?_⟩
    unfold open_sockets_for
    rw [h]

/-- C8 (witness): a failing `bind` on an otherwise healthy socket: the
fd 10 is closed and no result returned; the pool of the caller stays without
the address and `open_sockets_for` propagates the error. -/
theorem c8_witness :
    ((open_socket exPortPlain { exEnvAllOk with bindOk := false }).result = none ∧
     (open_socket exPortPlain { exEnvAllOk with bindOk := false }).closedFds = [10]) ∧
    (lookupAssoc ([] : Pool) ((1, 80) : Addr) = none ∧
     open_sockets_for (fun _ => { exEnvAllOk with bindOk := false }) true
       [(80, exPortPlain)] [] = ([], .error (.openFail (1, 80)))) :=
  ⟨c8_open_socket_atomic.1 exPortPlain { exEnvAllOk with bindOk := false } 10
      rfl (by decide),
   c8_open_socket_atomic.2 (fun _ => { exEnvAllOk with bindOk := false }) true
      [(80, exPortPlain)] [] [] (1, 80) (by decide)⟩

/-- C5 (code bug): for an external port with `reuse_port = true`,
`open_sockets_for` opens nothing at all — the opening loop only opens
when `!item.reuse_port` — and then the duplication loop calls
`socks.get(&addr).unwrap()` on the never-inserted address.  With any
other socket in the pool this is a panic (first conjunct: the pool is
unchanged — no fresh socket was opened — and the result is the `unwrap`
panic); with an empty pool the `if socks.len() > 0` guard silently
skips duplication and the child receives no fd at all (second
conjunct), contradicting the claimed fresh-socket-per-start
behaviour. -/
theorem c5_reuse_port_bug :
    open_sockets_for (fun _ => exEnvAllOk) true [(8080, exPortReuse)]
      ([(((9 : Nat), (9 : Nat)), 5)] : Pool) = ([((9, 9), 5)], .error .getPanic) ∧
    open_sockets_for (fun _ => exEnvAllOk) true [(8080, exPortReuse)] [] =
      ([], .ok []) := by
  constructor
  · decide
  · decide

/-- C6 (counterexample): the claim that `FD_CLOEXEC` is cleared "just
before the knot execs the workload and not earlier, so the tree process
itself never holds a listening socket with CLOEXEC cleared" is false:
in this successful `open_socket` run the returned fd — held and cached
by the tree itself, long before any knot exec — already has
`FD_CLOEXEC` cleared. -/
theorem c6_counterexample :
    ¬ ((open_socket exPortPlain exEnvAllOk).result = some 10 →
       (open_socket exPortPlain exEnvAllOk).finalCloexec = true) := by
  decide

/-- C6 (amended): for every listening socket fd the tree opens
successfully, the `FD_CLOEXEC` flag (set at creation via
`SOCK_CLOEXEC`) is cleared exactly once, and this happens inside
`open_socket` itself, immediately after `listen` succeeds and before
the fd is returned or cached — so the tree holds pool sockets with
CLOEXEC already cleared (which is what lets every later knot
fork+exec inherit them). -/
theorem c6_cloexec_at_open (cfg : TcpPort) (env : SockEnv) (fd : Nat) :
    (open_socket cfg env).result = some fd →
    (open_socket cfg env).cloexecClears = 1 ∧
    (open_socket cfg env).finalCloexec = false := by
  intro h
  unfold open_socket at *
  cases hs : env.socketFd with
  | none => rw [hs] at h; simp at h
  | some sock =>
    rw [hs] at h
    by_cases hok : openChainOk cfg env = true
    · have hcl : (chainToSetfd cfg env && env.setfdOk) = true := by
        have := hok
        unfold openChainOk at this
        simp only [Bool.and_eq_true] at this
        simp [this.1.1, this.1.2]
      simp [hok, hcl]
    · simp [hok] at h

/-- C6 (witness): the amended claim at the concrete successful open of
`c6_counterexample`. -/
theorem c6_witness :
    (open_socket exPortPlain exEnvAllOk).cloexecClears = 1 ∧
    (open_socket exPortPlain exEnvAllOk).finalCloexec = false :=
  c6_cloexec_at_open exPortPlain exEnvAllOk 10 (by decide)

/-- C4: classification of an enumerated child pid during recovery.
First conjunct: a `Normal` child matching a pending record is always
adopted into the children map and its record removed from the pending
map, the timer queue is untouched (no `Kill` is queued), and `SIGTERM`
is sent exactly when the serialized configs differ.  Second conjunct: a
`Normal` child with no pending record is inserted as `Unidentified` and
sent `SIGTERM`, with pending map and queue untouched.  Third conjunct:
a `Zombie` changes nothing.  Fourth conjunct: an unrecognized cmdline
gets `SIGTERM` and a `Kill(pid)` queued at `now + dkt`, with both maps
untouched.  Fifth conjunct: `recover_processes` is exactly the fold of
this per-pid step. -/
theorem c4_recover_processes :
    (∀ (now dkt : Nat) (st : RPState) (pid : Int) (name config : String)
       (child : TProcess),
      lookupAssoc st.configs name = some child →
      recoverStep now dkt st (pid, true, .normal name config) =
        { st with
          children := insertAssoc st.children pid (.process child),
          configs := eraseAssoc st.configs name,
          signals := st.signals ++
            (if child.config ≠ config then [(pid, 15)] else []) }) ∧
    (∀ (now dkt : Nat) (st : RPState) (pid : Int) (name config : String),
      lookupAssoc st.configs name = none →
      recoverStep now dkt st (pid, true, .normal name config) =
        { st with
          children := insertAssoc st.children pid (.unidentified name),
          signals := st.signals ++ [(pid, 15)] }) ∧
    (∀ (now dkt : Nat) (st : RPState) (pid : Int),
      recoverStep now dkt st (pid, true, .zombie) = st) ∧
    (∀ (now dkt : Nat) (st : RPState) (pid : Int),
      recoverStep now dkt st (pid, true, .unidentified) =
        { st with
          signals := st.signals ++ [(pid, 15)],
          queue := st.queue ++ [(now + dkt, .kill pid)] }) ∧
    (∀ (now dkt : Nat) (entries : List (Int × Bool × ArgsChild)) (st : RPState),
      recover_processes now dkt entries st =
        entries.foldl (recoverStep now dkt) st) := by
  refine ⟨?_, ?_, ?_, ?_, ?_⟩
  · intro now dkt st pid name config child h
    simp [recoverStep, h]
  · intro now dkt st pid name config h
    simp [recoverStep, h]
  · intro now dkt st pid
    rfl
  · intro now dkt st pid
    rfl
  · intro now dkt entries st
    rfl

/-- C4 (witness): a matching `Normal` child whose serialized config
changed from `"old"` to `"new"` is adopted and sent SIGTERM. -/
theorem c4_witness :
    recoverStep 100 80 exRPState (5, true, .normal "a" "new") =
      { exRPState with
        children := insertAssoc exRPState.children 5 (.process ⟨"a", "old"⟩),
        configs := eraseAssoc exRPState.configs "a",
        signals := exRPState.signals ++
          (if (⟨"a", "old"⟩ : TProcess).config ≠ "new" then [(5, 15)]
           else []) } :=
  c4_recover_processes.1 100 80 exRPState 5 "a" "new" ⟨"a", "old"⟩ rfl

/-- C10: the pid-file check (with a writable pid file).  First
conjunct: `check_process` refuses exactly when the file holds a pid
different from the current one and a live process with that pid exists.
Second conjunct: a file holding the current pid yields success without
rewriting.  Third and fourth conjuncts: an absent or unreadable file is
overwritten with the current pid and startup proceeds.  Fifth conjunct:
a stale pid (different, not alive) is overwritten and startup
proceeds. -/
theorem c10_check_process (mypid : Int) (file : PidFile)
    (alive : Int → Bool) :
    ((check_process mypid file alive true).ok = false ↔
      ∃ p, file = .content p ∧ p ≠ mypid ∧ alive p = true) ∧
    (check_process mypid (.content mypid) alive true = ⟨true, false⟩) ∧
    (check_process mypid .absent alive true = ⟨true, true⟩) ∧
    (check_process mypid .unreadable alive true = ⟨true, true⟩) ∧
    (∀ p : Int, p ≠ mypid → alive p = false →
      check_process mypid (.content p) alive true = ⟨true, true⟩) := by
  refine ⟨?_, by simp [check_process], rfl, rfl, ?_⟩
  · cases file with
    | absent => simp [check_process]
    | unreadable => simp [check_process]
    | content p =>
      by_cases hp : p = mypid
      · subst hp
        simp [check_process]
      · cases ha : alive p with
        | true => simp [check_process, hp, ha]
        | false => simp [check_process, hp, ha]
  · intro p hp ha
    simp [check_process, hp, ha]

/-- C10 (witness): a stale pid file naming dead process 4 while running
as pid 10: the file is rewritten and startup proceeds. -/
theorem c10_witness :
    check_process 10 (.content 4) (fun _ => false) true = ⟨true, true⟩ :=
  (c10_check_process 10 (.content 4) (fun _ => false)).2.2.2.2 4 (by decide) rfl

/-- The user check succeeds exactly when the resolved user id passes
the map/range test prescribed for it. -/
theorem checkUser_ok (l : LocalIds) (s : SandboxIds) :
    exceptOk (checkUser l s) = true ↔
      ∃ u, resolve_user l s = some u ∧
        (if l.uid_map = [] then in_range s.allow_users u
         else in_mapping l.uid_map u) = true := by
  cases hr : resolve_user l s with
  | none => simp [checkUser, hr, exceptOk]
  | some u =>
    cases hm : l.uid_map with
    | nil =>
      cases hir : in_range s.allow_users u with
      | false => simp [checkUser, hr, hm, hir, exceptOk]
      | true => simp [checkUser, hr, hm, hir, exceptOk]
    | cons m ms =>
      cases him : in_mapping (m :: ms) u with
      | false => simp [checkUser, hr, hm, him, exceptOk]
      | true => simp [checkUser, hr, hm, him, exceptOk]

/-- The group check succeeds exactly when the resolved group id passes
the map/range test prescribed for it. -/
theorem checkGroup_ok (l : LocalIds) (s : SandboxIds) :
    exceptOk (checkGroup l s) = true ↔
      ∃ g, resolve_group l s = some g ∧
        (if l.gid_map = [] then in_range s.allow_groups g
         else in_mapping l.gid_map g) = true := by
  cases hr : resolve_group l s with
  | none => simp [checkGroup, hr, exceptOk]
  | some g =>
    cases hm : l.gid_map with
    | nil =>
      cases hir : in_range s.allow_groups g with
      | false => simp [checkGroup, hr, hm, hir, exceptOk]
      | true => simp [checkGroup, hr, hm, hir, exceptOk]
    | cons m ms =>
      cases him : in_mapping (m :: ms) g with
      | false => simp [checkGroup, hr, hm, him, exceptOk]
      | true => simp [checkGroup, hr, hm, him, exceptOk]

/-- The whole check block succeeds exactly when all four constituent
checks succeed. -/
theorem uidGidChecks_ok (l : LocalIds) (s : SandboxIds) :
    exceptOk (uidGidChecks l s) = true ↔
      (exceptOk (checkUser l s) = true ∧ exceptOk (checkGroup l s) = true ∧
       check_mapping s.allow_users l.uid_map = true ∧
       check_mapping s.allow_groups l.gid_map = true) := by
  cases hu : checkUser l s with
  | error e => simp [uidGidChecks, hu, exceptOk]
  | ok u =>
    cases hg : checkGroup l s with
    | error e => simp [uidGidChecks, hu, hg, exceptOk]
    | ok g =>
      cases hm1 : check_mapping s.allow_users l.uid_map with
      | false => simp [uidGidChecks, hu, hg, hm1, exceptOk]
      | true =>
        cases hm2 : check_mapping s.allow_groups l.gid_map with
        | false => simp [uidGidChecks, hu, hg, hm1, hm2, exceptOk]
        | true => simp [uidGidChecks, hu, hg, hm1, hm2, exceptOk]

/-- C3: the knot starts only under the claimed id conditions.  First
conjunct: the check block before spawning succeeds iff a user id
resolves and satisfies `in_range(allow_users, ·)` when `uid_map` is
empty or `in_mapping(uid_map, ·)` when non-empty, the same holds for
the group id, and `check_mapping` accepts both maps against the
allowed ranges of the sandbox.  Second and third conjuncts: the user id
resolves with precedence local config then sandbox default.  Fourth
conjunct: when neither is present the check refuses. -/
theorem c3_uid_gid_checks (l : LocalIds) (s : SandboxIds) :
    (exceptOk (uidGidChecks l s) = true ↔
      ((∃ u, resolve_user l s = some u ∧
          (if l.uid_map = [] then in_range s.allow_users u
           else in_mapping l.uid_map u) = true) ∧
       (∃ g, resolve_group l s = some g ∧
          (if l.gid_map = [] then in_range s.allow_groups g
           else in_mapping l.gid_map g) = true) ∧
       check_mapping s.allow_users l.uid_map = true ∧
       check_mapping s.allow_groups l.gid_map = true)) ∧
    (∀ u : Nat, l.user_id = some u → resolve_user l s = some u) ∧
    (l.user_id = none → resolve_user l s = s.default_user) ∧
    (resolve_user l s = none → exceptOk (uidGidChecks l s) = false) := by
  refine ⟨?_, ?_, ?_, ?_⟩
  · rw [uidGidChecks_ok, checkUser_ok, checkGroup_ok]
  · intro u h
    simp [resolve_user, h]
  · intro h
    cases hd : s.default_user <;> simp [resolve_user, h, hd]
  · intro h
    cases hq : exceptOk (uidGidChecks l s) with
    | false => rfl
    | true =>
      have h2 := ((uidGidChecks_ok l s).mp hq).1
      rw [checkUser_ok] at h2
      obtain ⟨u, hu, _⟩ := h2
      rw [h] at hu
      exact absurd hu (by simp)

/-- C3 (witness): a container with no local user id in a sandbox with
no default user is refused. -/
theorem c3_witness :
    exceptOk (uidGidChecks ⟨none, some 5, [], []⟩ ⟨none, none, [], []⟩) = false :=
  (c3_uid_gid_checks ⟨none, some 5, [], []⟩ ⟨none, none, [], []⟩).2.2.2 rfl

end Lithos
